import Mathlib

set_option autoImplicit false

/-!
Verification development for the octofer webhook framework.

The definitions below are a shallow embedding of the framework's core:
the HMAC-SHA256 webhook signature verifier (`src/github/middlewares/hmac.rs`),
the event-classification middleware (`src/github/middlewares/events.rs`),
the webhook dispatcher (`src/webhook/handlers.rs`, `src/webhook/server.rs`),
the installation-token cache (`src/github/client.rs`, `src/github/auth.rs`)
and the credential loader (`src/config.rs`).

Bytes are modelled as natural numbers below 256, timestamps as integers
counting seconds, and the chrono datetime library, the filesystem and the
remote GitHub API as explicit functional parameters.  Machine-integer
arithmetic inside SHA-256 is carried out on `Nat` with explicit reduction
modulo `2 ^ 32`.
-/

namespace Octofer

/-! ## SHA-256 (the `sha2` crate used by `verify_hmac_sha256`)

A byte-level implementation of FIPS 180-4 SHA-256, the hash the `sha2`
crate computes for the `Hmac<Sha256>` verifier in
`src/github/middlewares/hmac.rs`.  Words are `Nat` reduced modulo `2 ^ 32`.
-/

/-- Truncate to a 32-bit word. -/
def w32 (n : Nat) : Nat := n % 4294967296

/-- Right-rotate a 32-bit word by `n` bits. -/
def rotr32 (n x : Nat) : Nat := w32 ((x >>> n) ||| (x <<< (32 - n)))

/-- SHA-256 round constants, in decimal. -/
def shaK : List Nat :=
  [1116352408, 1899447441, 3049323471, 3921009573, 961987163,
   1508970993, 2453635748, 2870763221, 3624381080, 310598401,
   607225278, 1426881987, 1925078388, 2162078206, 2614888103,
   3248222580, 3835390401, 4022224774, 264347078, 604807628,
   770255983, 1249150122, 1555081692, 1996064986, 2554220882,
   2821834349, 2952996808, 3210313671, 3336571891, 3584528711,
   113926993, 338241895, 666307205, 773529912, 1294757372,
   1396182291, 1695183700, 1986661051, 2177026350, 2456956037,
   2730485921, 2820302411, 3259730800, 3345764771, 3516065817,
   3600352804, 4094571909, 275423344, 430227734, 506948616,
   659060556, 883997877, 958139571, 1322822218, 1537002063,
   1747873779, 1955562222, 2024104815, 2227730452, 2361852424,
   2428436474, 2756734187, 3204031479, 3329325298]

/-- SHA-256 initial hash value, in decimal. -/
def shaInit : List Nat :=
  [1779033703, 3144134277, 1013904242, 2773480762,
   1359893119, 2600822924, 528734635, 1541459225]

/-- Big-endian byte decomposition of `n` on `k` bytes. -/
def toBytesBE : Nat → Nat → List Nat
  | 0, _ => []
  | k + 1, n => toBytesBE k (n / 256) ++ [n % 256]

/-- Group a byte list into big-endian 32-bit words, four bytes at a time. -/
def wordsOfBytes : List Nat → List Nat
  | b0 :: b1 :: b2 :: b3 :: rest =>
      (((b0 * 256 + b1) * 256 + b2) * 256 + b3) :: wordsOfBytes rest
  | _ => []

/-- Group a word list into 16-word blocks. -/
def blocksOf16 : List Nat → List (List Nat)
  | w0 :: w1 :: w2 :: w3 :: w4 :: w5 :: w6 :: w7 ::
    w8 :: w9 :: w10 :: w11 :: w12 :: w13 :: w14 :: w15 :: rest =>
      [w0, w1, w2, w3, w4, w5, w6, w7, w8, w9, w10, w11, w12, w13, w14, w15]
        :: blocksOf16 rest
  | _ => []

/-- SHA-256 small sigma 0. -/
def sSigma0 (x : Nat) : Nat := (rotr32 7 x) ^^^ (rotr32 18 x) ^^^ (x >>> 3)

/-- SHA-256 small sigma 1. -/
def sSigma1 (x : Nat) : Nat := (rotr32 17 x) ^^^ (rotr32 19 x) ^^^ (x >>> 10)

/-- SHA-256 big sigma 0. -/
def bSigma0 (x : Nat) : Nat := (rotr32 2 x) ^^^ (rotr32 13 x) ^^^ (rotr32 22 x)

/-- SHA-256 big sigma 1. -/
def bSigma1 (x : Nat) : Nat := (rotr32 6 x) ^^^ (rotr32 11 x) ^^^ (rotr32 25 x)

/-- SHA-256 choice function; complement is taken inside 32 bits. -/
def chFn (x y z : Nat) : Nat := (x &&& y) ^^^ ((x ^^^ 0xffffffff) &&& z)

/-- SHA-256 majority function. -/
def majFn (x y z : Nat) : Nat := (x &&& y) ^^^ (x &&& z) ^^^ (y &&& z)

/-- Extend the message schedule; `acc` holds the words produced so far,
most recent first. -/
def extendSchedule : Nat → List Nat → List Nat
  | 0, acc => acc.reverse
  | n + 1, acc =>
      extendSchedule n
        (w32 (sSigma1 (acc.getD 1 0) + acc.getD 6 0 +
              sSigma0 (acc.getD 14 0) + acc.getD 15 0) :: acc)

/-- The 64-word message schedule of a 16-word block. -/
def schedule (block : List Nat) : List Nat := extendSchedule 48 block.reverse

/-- The eight SHA-256 working variables. -/
structure ShaState where
  a : Nat
  b : Nat
  c : Nat
  d : Nat
  e : Nat
  f : Nat
  g : Nat
  h : Nat

/-- One SHA-256 round; `kw` pairs the round constant with the schedule word. -/
def roundStep (st : ShaState) (kw : Nat × Nat) : ShaState :=
  let t1 := w32 (st.h + bSigma1 st.e + chFn st.e st.f st.g + kw.1 + kw.2)
  let t2 := w32 (bSigma0 st.a + majFn st.a st.b st.c)
  ⟨w32 (t1 + t2), st.a, st.b, st.c, w32 (st.d + t1), st.e, st.f, st.g⟩

/-- Compress one 16-word block into the running hash value. -/
def compress (hs block : List Nat) : List Nat :=
  let ws := schedule block
  let st0 : ShaState :=
    ⟨hs.getD 0 0, hs.getD 1 0, hs.getD 2 0, hs.getD 3 0,
     hs.getD 4 0, hs.getD 5 0, hs.getD 6 0, hs.getD 7 0⟩
  let stF := (shaK.zip ws).foldl roundStep st0
  [w32 (hs.getD 0 0 + stF.a), w32 (hs.getD 1 0 + stF.b),
   w32 (hs.getD 2 0 + stF.c), w32 (hs.getD 3 0 + stF.d),
   w32 (hs.getD 4 0 + stF.e), w32 (hs.getD 5 0 + stF.f),
   w32 (hs.getD 6 0 + stF.g), w32 (hs.getD 7 0 + stF.h)]

/-- SHA-256 padding: a `0x80` byte, zeros up to 56 mod 64, then the
bit length on eight big-endian bytes. -/
def sha256pad (msg : List Nat) : List Nat :=
  msg ++ 0x80 :: List.replicate ((120 - ((msg.length + 1) % 64)) % 64) 0
      ++ toBytesBE 8 (8 * msg.length)

/-- SHA-256 of a byte list, as a 32-byte list. -/
def sha256 (msg : List Nat) : List Nat :=
  (((blocksOf16 (wordsOfBytes (sha256pad msg))).foldl compress shaInit).map
    (toBytesBE 4)).flatten

/-! ## HMAC-SHA256 (the `hmac` crate) -/

/-- HMAC key normalised to the 64-byte SHA-256 block size. -/
def hmacBlockKey (key : List Nat) : List Nat :=
  let k0 := if 64 < key.length then sha256 key else key
  k0 ++ List.replicate (64 - k0.length) 0

/-- HMAC-SHA256 of `msg` under `key`. -/
def hmacSha256 (key msg : List Nat) : List Nat :=
  let k := hmacBlockKey key
  sha256 ((k.map (fun b => b ^^^ 0x5c)) ++
          sha256 ((k.map (fun b => b ^^^ 0x36)) ++ msg))

/-! ## Hex encoding (the `hex` crate) -/

/-- The lowercase hex digit of a nibble, by character code: digits from
code 48, letters from code 87 + value. -/
def hexDigitChar (n : Nat) : Char :=
  if n < 10 then Char.ofNat (48 + n) else Char.ofNat (87 + n)

/-- Lowercase hex encoding of a byte list, two digits per byte. -/
def hexEncode : List Nat → List Char
  | [] => []
  | b :: rest => hexDigitChar (b / 16) :: hexDigitChar (b % 16) :: hexEncode rest

/-- Value of one hex digit, upper or lower case accepted, as
`hex::decode` accepts them; by character-code ranges. -/
def hexDigitVal (c : Char) : Option Nat :=
  if 48 ≤ c.toNat ∧ c.toNat ≤ 57 then some (c.toNat - 48)
  else if 97 ≤ c.toNat ∧ c.toNat ≤ 102 then some (c.toNat - 87)
  else if 65 ≤ c.toNat ∧ c.toNat ≤ 70 then some (c.toNat - 55)
  else none

/-- Hex decoding; fails on an odd length or a non-hex character,
as `hex::decode` does. -/
def hexDecode : List Char → Option (List Nat)
  | [] => some []
  | [_] => none
  | c1 :: c2 :: rest =>
    match hexDigitVal c1, hexDigitVal c2, hexDecode rest with
    | some hi, some lo, some bs => some ((16 * hi + lo) :: bs)
    | _, _, _ => none

/-! ## Signature verification (`src/github/middlewares/hmac.rs`) -/

/-- Failure cases of `verify_hmac_sha256`, in the order the source checks
them: missing `"sha256="` tag, undecodable hex, digest mismatch. -/
inductive VerifyError where
  | missingTag : VerifyError
  | badHex : VerifyError
  | mismatch : VerifyError
deriving DecidableEq

/-- `signature.strip_prefix("sha256=")` on the signature header value. -/
def dropSha256Tag : List Char → Option (List Char)
  | 's' :: 'h' :: 'a' :: '2' :: '5' :: '6' :: '=' :: rest => some rest
  | _ => none

/-- `verify_hmac_sha256` from `src/github/middlewares/hmac.rs`: strip the
`"sha256="` tag, hex-decode the rest, recompute HMAC-SHA256 of `payload`
under `secret` and compare with the decoded digest. -/
def verify_hmac_sha256 (signature : List Char) (payload secret : List Nat) :
    Except VerifyError Unit :=
  match dropSha256Tag signature with
  | none => Except.error VerifyError.missingTag
  | some hexSig =>
    match hexDecode hexSig with
    | none => Except.error VerifyError.badHex
    | some expected =>
      if hmacSha256 secret payload = expected then Except.ok ()
      else Except.error VerifyError.mismatch

/-- The signature GitHub sends for `payload` under `secret`:
`"sha256="` followed by the lowercase hex HMAC-SHA256 digest. -/
def githubSignature (secret payload : List Nat) : List Char :=
  's' :: 'h' :: 'a' :: '2' :: '5' :: '6' :: '=' :: hexEncode (hmacSha256 secret payload)

/-! ## The HTTP request model and middlewares

A request carries the `X-GitHub-Event` header, the signature header named
by the HMAC configuration (`x-hub-signature-256` by default) and the raw
body bytes.  `none` for a header models a missing or non-ASCII header, the
two cases the source folds into the same rejection. -/

/-- An inbound `POST /webhook` request. -/
structure Request where
  eventHeader : Option String
  sigHeader : Option (List Char)
  body : List Nat

/-- `HmacConfig` from `src/github/middlewares/hmac.rs`; the secret is kept
as its byte string. -/
structure HmacConfig where
  secret : List Nat
  headerName : String

/-- `restore_request_body` from `src/github/middlewares/events.rs`:
put the extracted bytes back into the request. -/
def restore_request_body (req : Request) (body : List Nat) : Request :=
  { req with body := body }

/-- `verify_hmac_middleware` from `src/github/middlewares/hmac.rs`: reject
with 400 when the signature header is absent, read the whole body, verify
it, reject with 401 on any verification failure, otherwise reconstruct the
request around the verified bytes and pass it on. -/
def verify_hmac_middleware (cfg : HmacConfig) (req : Request) :
    Except Nat Request :=
  match req.sigHeader with
  | none => Except.error 400
  | some signature =>
    let payload := req.body
    match verify_hmac_sha256 signature payload cfg.secret with
    | Except.ok _ => Except.ok (restore_request_body req payload)
    | Except.error _ => Except.error 401

/-- A parsed webhook event: its kind string and, when the payload has an
`installation` object with an `id`, that id.  Stands for octocrab's
`WebhookEvent` restricted to the fields the framework reads. -/
structure WebhookEventModel where
  kind : String
  installation : Option Nat
deriving DecidableEq

/-- `u64 as i64` two's-complement cast. -/
def i64cast (n : Nat) : Int :=
  if n % 18446744073709551616 < 9223372036854775808 then
    ((n % 18446744073709551616 : Nat) : Int)
  else ((n % 18446744073709551616 : Nat) : Int) - 18446744073709551616

/-- `i64 as u64` two's-complement cast. -/
def u64cast (i : Int) : Nat := (i.emod 18446744073709551616).toNat

/-- `GitHubEventContext` from `src/github/middlewares/events.rs`: the
parsed event and the installation id as an `i64`, stored in the request
extensions. -/
structure GitHubEventContext where
  event : WebhookEventModel
  installation_id : Option Int
deriving DecidableEq

/-- `github_event_middleware` from `src/github/middlewares/events.rs`:
reject with 400 when the `X-GitHub-Event` header is absent or invalid,
consume the body, parse it (400 on failure), record the event context and
restore the body for downstream stages.  The octocrab/serde parser is the
`parseEvent` parameter. -/
def github_event_middleware
    (parseEvent : String → List Nat → Option WebhookEventModel)
    (req : Request) : Except Nat (Request × GitHubEventContext) :=
  match req.eventHeader with
  | none => Except.error 400
  | some eventType =>
    let body := req.body
    match parseEvent eventType body with
    | none => Except.error 400
    | some ev =>
      let context : GitHubEventContext :=
        ⟨ev, ev.installation.map (fun n => i64cast n)⟩
      Except.ok (restore_request_body req body, context)

/-! ## Context and dispatch (`src/core.rs`, `src/webhook/handlers.rs`) -/

/-- `Context` from `src/core.rs`, restricted to the fields the dispatcher
reads; the GitHub client handle plays no role in dispatch. -/
structure Context where
  event : Option WebhookEventModel
  installation_id : Option Nat
deriving DecidableEq

/-- `Context::kind`: the event kind string, `"undefined"` without an event. -/
def Context.kind (c : Context) : String :=
  (c.event.map WebhookEventModel.kind).getD "undefined"

/-- The context `handle_webhook` builds: the parsed event and the
installation id cast back `i64 as u64`. -/
def mkDispatchContext (g : GitHubEventContext) : Context :=
  ⟨some g.event, g.installation_id.map u64cast⟩

/-- A registered event handler, by its outcome on a context: handlers are
opaque user closures, observed through the `Result` they return. -/
abbrev Handler : Type := Context → Except String Unit

/-- The handler loop of `handle_webhook`, invoking handlers left to right
from index `start`, stopping at the first error.  Returns the indices
invoked, in invocation order, and whether all of them succeeded. -/
def runHandlersFrom (ctx : Context) : Nat → List Handler → List Nat × Bool
  | _, [] => ([], true)
  | i, h :: rest =>
    match h ctx with
    | Except.ok _ =>
      let r := runHandlersFrom ctx (i + 1) rest
      (i :: r.1, r.2)
    | Except.error _ => ([i], false)

/-- `handle_webhook` from `src/webhook/handlers.rs`: 400 without an event
context in the extensions; otherwise look up the handlers registered for
the context's kind, run them in order, 500 as soon as one fails, 200
otherwise — also when no handler is registered.  The second component
records which handlers were invoked, in order. -/
def handle_webhook (handlers : String → Option (List Handler))
    (ext : Option GitHubEventContext) : Nat × List Nat :=
  match ext with
  | none => (400, [])
  | some g =>
    let ctx := mkDispatchContext g
    match handlers ctx.kind with
    | some hs =>
      let r := runHandlersFrom ctx 0 hs
      (if r.2 then 200 else 500, r.1)
    | none => (200, [])

/-! ## Handler registry (`src/webhook/server.rs`) -/

/-- The handler registry, as the association list underlying the
`HashMap<String, Vec<EventHandlerFn>>` of `AppState`. -/
abbrev Registry : Type := List (String × List Handler)

/-- `HashMap::get` on the registry. -/
def regGet (reg : Registry) (event : String) : Option (List Handler) :=
  (List.find? (fun p => p.1 == event) reg).map Prod.snd

/-- `WebhookServer::on` from `src/webhook/server.rs`:
`entry(event).or_default().push(handler)` — append the handler to the
event's list, creating the entry when absent. -/
def onRegister (reg : Registry) (event : String) (h : Handler) : Registry :=
  match List.find? (fun p => p.1 == event) reg with
  | some _ => reg.map (fun p => if p.1 == event then (p.1, p.2 ++ [h]) else p)
  | none => reg ++ [(event, [h])]

/-- Register a list of handlers for one event type, in list order. -/
def registerAll (reg : Registry) (event : String) (hs : List Handler) :
    Registry :=
  hs.foldl (fun r h => onRegister r event h) reg

/-! ## The composed `POST /webhook` route (`src/webhook/server.rs`)

`create_router` layers `github_event_middleware` outermost, then
`verify_hmac_middleware`, then `handle_webhook`; a middleware rejection is
the response, and the event context recorded by the first stage reaches
the handler through the request extensions. -/

/-- The `POST /webhook` pipeline: classification, then signature
verification, then dispatch. -/
def webhook_route (parseEvent : String → List Nat → Option WebhookEventModel)
    (cfg : HmacConfig) (handlers : String → Option (List Handler))
    (req : Request) : Nat × List Nat :=
  match github_event_middleware parseEvent req with
  | Except.error status => (status, [])
  | Except.ok (req1, g) =>
    match verify_hmac_middleware cfg req1 with
    | Except.error status => (status, [])
    | Except.ok _ => handle_webhook handlers (some g)

/-- Outcome of a handler call as a Boolean. -/
def isOkB (r : Except String Unit) : Bool :=
  match r with
  | Except.ok _ => true
  | Except.error _ => false

/-- Modelled from the spec: the claimed response-status ladder for
`POST /webhook` — 200 on successful dispatch (including the zero-handlers
case), 400 on a missing/malformed required header or an unparseable body,
401 when the HMAC signature does not verify, 500 when an invoked handler
errors. -/
def claimedStatus (parseEvent : String → List Nat → Option WebhookEventModel)
    (cfg : HmacConfig) (handlers : String → Option (List Handler))
    (req : Request) : Nat :=
  match req.eventHeader with
  | none => 400
  | some eventType =>
    match parseEvent eventType req.body with
    | none => 400
    | some ev =>
      match req.sigHeader with
      | none => 400
      | some signature =>
        match verify_hmac_sha256 signature req.body cfg.secret with
        | Except.error _ => 401
        | Except.ok _ =>
          let ctx := mkDispatchContext ⟨ev, ev.installation.map (fun n => i64cast n)⟩
          match handlers ctx.kind with
          | none => 200
          | some hs => if hs.all (fun h => isOkB (h ctx)) then 200 else 500

/-! ## Installation-token cache (`src/github/client.rs`, `src/github/auth.rs`)

The chrono datetime library is an external collaborator: it enters as a
parse function `String → Option Int` (UTC seconds; `none` models a string
`chrono` cannot parse, on which `parse_to_utc`'s `expect` aborts) and a
formatting function `Int → String` for `DateTime::to_string`.  Results
that the source can only reach by not aborting are wrapped in `Option`,
with `none` standing for the abort. -/

/-- `InstallationToken` (octocrab), restricted to the fields the framework
reads: the token string and the optional `expires_at` datetime string. -/
structure InstallationToken where
  token : String
  expires_at : Option String
deriving DecidableEq

/-- `CachedInstallationClient` from `src/github/client.rs`: the client is
identified by the personal token it was built from. -/
structure CachedInstallationClient where
  client : String
  token : InstallationToken
  created_at : Int

/-- `parse_to_utc` from `src/github/auth.rs`: parse a datetime string,
aborting (`expect`, modelled by `none`) when it does not parse. -/
def parse_to_utc (chronoParse : String → Option Int) (date_str : String) :
    Option Int :=
  chronoParse date_str

/-- `CachedInstallationClient::is_expired`: the token counts as expired
when `now` plus the 5-minute buffer reaches the effective expiry — the
parsed `expires_at` when present, else `created_at` plus 1 hour printed
and reparsed.  `none` is the abort of `parse_to_utc` on an unparseable
string. -/
def is_expired (chronoParse : String → Option Int) (chronoShow : Int → String)
    (now : Int) (c : CachedInstallationClient) : Option Bool :=
  let default_expires_at : Int := c.created_at + 3600
  let expires_at : String := (c.token.expires_at).getD (chronoShow default_expires_at)
  (parse_to_utc chronoParse expires_at).map (fun e => decide (now + 300 ≥ e))

/-- An installation as `create_installation_token` reads it: its id and
its optional token-issuance URL. -/
structure Installation where
  id : Nat
  access_tokens_url : Option String
deriving DecidableEq

/-- The remote GitHub API as the client observes it during one call:
the outcome of listing installations, which URLs parse, and the outcome
of a token-creation POST per installation id. -/
structure RemoteApi where
  installations : Except String (List Installation)
  urlOk : String → Bool
  mintToken : Nat → Except String InstallationToken

/-- Failures of the token/client path, mirroring the `anyhow!` messages of
`src/github/client.rs`. -/
inductive ApiError where
  | fetchInstallations : String → ApiError
  | notFound : Nat → ApiError
  | noAccessTokensUrl : Nat → ApiError
  | invalidUrl : Nat → ApiError
  | tokenCreation : Nat → ApiError
deriving DecidableEq

/-- Outcome of `create_installation_token`, together with the number of
token-creation POST requests it issued. -/
structure TokenAttempt where
  result : Except ApiError InstallationToken
  posts : Nat

/-- `GitHubClient::create_installation_token`: list the installations,
find the requested one (`NotFound` when absent), read its token-issuance
URL, parse it, and only then POST the token-creation request. -/
def create_installation_token (env : RemoteApi) (installation_id : Nat) :
    TokenAttempt :=
  match env.installations with
  | Except.error e => ⟨Except.error (ApiError.fetchInstallations e), 0⟩
  | Except.ok insts =>
    match insts.find? (fun i => i.id == installation_id) with
    | none => ⟨Except.error (ApiError.notFound installation_id), 0⟩
    | some inst =>
      match inst.access_tokens_url with
      | none => ⟨Except.error (ApiError.noAccessTokensUrl installation_id), 0⟩
      | some url =>
        if env.urlOk url then
          match env.mintToken installation_id with
          | Except.error _ => ⟨Except.error (ApiError.tokenCreation installation_id), 1⟩
          | Except.ok tok => ⟨Except.ok tok, 1⟩
        else ⟨Except.error (ApiError.invalidUrl installation_id), 0⟩

/-- Outcome of a client lookup: the resulting client handle or error, the
number of token-creation POSTs issued, and the cache afterwards. -/
structure ClientAttempt where
  result : Except ApiError String
  posts : Nat
  newCache : Nat → Option CachedInstallationClient

/-- `GitHubClient::create_installation_client`: mint a token, build a
client authenticated with its token string, and cache it under the
installation id with `created_at := now`. -/
def create_installation_client (env : RemoteApi) (now : Int)
    (cache : Nat → Option CachedInstallationClient) (installation_id : Nat) :
    ClientAttempt :=
  let t := create_installation_token env installation_id
  match t.result with
  | Except.error e => ⟨Except.error e, t.posts, cache⟩
  | Except.ok tok =>
    ⟨Except.ok tok.token, t.posts,
     fun k => if k = installation_id then some ⟨tok.token, tok, now⟩ else cache k⟩

/-- `GitHubClient::installation_client`: return the cached client when a
cached entry exists and is not expired, otherwise create (and cache) a
fresh one.  `none` propagates the abort of the expiry check. -/
def installation_client (chronoParse : String → Option Int)
    (chronoShow : Int → String) (env : RemoteApi) (now : Int)
    (cache : Nat → Option CachedInstallationClient) (installation_id : Nat) :
    Option ClientAttempt :=
  match cache installation_id with
  | some cached =>
    match is_expired chronoParse chronoShow now cached with
    | none => none
    | some false => some ⟨Except.ok cached.client, 0, cache⟩
    | some true => some (create_installation_client env now cache installation_id)
  | none => some (create_installation_client env now cache installation_id)

/-! ## Credential loader (`src/config.rs`) -/

/-- `GitHubConfig`: the app id and the private key bytes. -/
structure GitHubConfig where
  app_id : Nat
  private_key : List Nat
deriving DecidableEq

/-- `GitHubConfig::new` from `src/config.rs`: when a path is supplied read
the key file, else when a base64 payload is supplied decode it, else fail.
The filesystem and the base64 decoder are the `readFile` and
`base64Decode` parameters. -/
def GitHubConfig.new (readFile : String → Except String (List Nat))
    (base64Decode : String → Except String (List Nat)) (app_id : Nat)
    (private_key_path : Option String) (private_key_base64 : Option String) :
    Except String GitHubConfig :=
  match private_key_path with
  | some path =>
    match readFile path with
    | Except.ok key => Except.ok ⟨app_id, key⟩
    | Except.error e =>
      Except.error ("Failed to read private key from " ++ path ++ ": " ++ e)
  | none =>
    match private_key_base64 with
    | some b64 =>
      match base64Decode b64 with
      | Except.ok key => Except.ok ⟨app_id, key⟩
      | Except.error e =>
        Except.error ("Failed to decode private key from base64: " ++ e)
    | none =>
      Except.error "Either private_key_path or private_key_base64 must be provided"

/-! ## Concrete fixtures

Closed instances used by the witness theorems below: tiny handlers,
requests, caches and remote environments on which the verified statements
are evaluated. -/

/-- A handler that always succeeds. -/
def hOkF : Handler := fun _ => Except.ok ()

/-- A handler that always fails. -/
def hErrF : Handler := fun _ => Except.error "boom"

/-- An event context for an `issues` event of installation 555. -/
def gFix : GitHubEventContext := ⟨⟨"issues", some 555⟩, some 555⟩

/-- A lookup table with three `issues` handlers, the second failing. -/
def lookupC5 : String → Option (List Handler) :=
  fun k => if k = "issues" then some [hOkF, hErrF, hOkF] else none

/-- A registry holding a failing then a succeeding `issues` handler. -/
def regC6 : Registry := registerAll [] "issues" [hErrF, hOkF]

/-- A parser accepting every body and echoing the event-type header. -/
def parseEvFix : String → List Nat → Option WebhookEventModel :=
  fun eventType _ => some ⟨eventType, none⟩

/-- The byte string of the fixture webhook secret. -/
def secretFix : List Nat := [115]

/-- A fixture body. -/
def bodyFix : List Nat := [97, 98]

/-- The fixture HMAC configuration. -/
def cfgFix : HmacConfig := ⟨secretFix, "x-hub-signature-256"⟩

/-- A correctly signed fixture request. -/
def reqC9 : Request :=
  ⟨some "issues", some (githubSignature secretFix bodyFix), bodyFix⟩

/-- The event context `parseEvFix` yields for `reqC9`. -/
def gC9 : GitHubEventContext := ⟨⟨"issues", none⟩, none⟩

/-- A chrono parser fixture mapping every string to 3600. -/
def parse1 : String → Option Int := fun _ => some 3600

/-- A chrono formatter fixture. -/
def show1 : Int → String := fun _ => "d"

/-- A cached entry created at time 0 with no `expires_at`. -/
def entC1 : CachedInstallationClient := ⟨"cl", ⟨"tok", none⟩, 0⟩

/-- A cache holding `entC1` under installation 7. -/
def cacheC1 : Nat → Option CachedInstallationClient :=
  fun k => if k = 7 then some entC1 else none

/-- A remote environment with no installations and an unreachable mint. -/
def envEmpty : RemoteApi :=
  ⟨Except.ok [], fun _ => true, fun _ => Except.error "unavailable"⟩

/-- A remote environment with installation 1 minting token `tok1`. -/
def envC4 : RemoteApi :=
  ⟨Except.ok [⟨1, some "https://api.github.com/app/installations/1/access_tokens"⟩],
   fun _ => true, fun _ => Except.ok ⟨"tok1", none⟩⟩

/-- The cache state after the first `installation_client` call on `envC4`. -/
def cacheC4 : Nat → Option CachedInstallationClient :=
  fun k => if k = 1 then some ⟨"tok1", ⟨"tok1", none⟩, 0⟩ else none

/-- A cached entry for installation 999 expiring far in the future. -/
def entC8 : CachedInstallationClient :=
  ⟨"cachedTok", ⟨"cachedTok", some "2999-01-01T00:00:00Z"⟩, 0⟩

/-- A cache holding `entC8` under installation 999. -/
def cacheC8 : Nat → Option CachedInstallationClient :=
  fun k => if k = 999 then some entC8 else none

/-- A chrono parser fixture recognising only the `entC8` expiry string. -/
def parseC8 : String → Option Int :=
  fun s => if s = "2999-01-01T00:00:00Z" then some 32472144000 else none

/-- A chrono parser fixture recognising only the string `"good"`. -/
def parseC10 : String → Option Int :=
  fun s => if s = "good" then some 3600 else none

/-- A cached entry whose `expires_at` string is unparseable. -/
def entC10 : CachedInstallationClient := ⟨"cl", ⟨"tok", some "garbage"⟩, 0⟩

/-- A cache holding `entC10` under installation 3. -/
def cacheC10 : Nat → Option CachedInstallationClient :=
  fun k => if k = 3 then some entC10 else none

/-- A filesystem fixture in which every file holds the byte `0`. -/
def rfFix : String → Except String (List Nat) := fun _ => Except.ok [0]

/-- A base64 decoder fixture that rejects every payload. -/
def bdFix : String → Except String (List Nat) := fun _ => Except.error "pad"

/-! ## Theorems -/

/-- Every byte of a big-endian decomposition is below 256. -/
theorem toBytesBE_lt {k n b : Nat} (h : b ∈ toBytesBE k n) : b < 256 := by
  induction k generalizing n with
  | zero => simp [toBytesBE] at h
  | succ k ih =>
    simp only [toBytesBE, List.mem_append, List.mem_singleton] at h
    rcases h with h | h
    · exact ih h
    · subst h
      exact Nat.mod_lt _ (by decide)

/-- Every byte of a SHA-256 digest is below 256. -/
theorem sha256_lt {msg : List Nat} {b : Nat} (h : b ∈ sha256 msg) : b < 256 := by
  simp only [sha256, List.mem_flatten, List.mem_map] at h
  rcases h with ⟨bs, ⟨w, _, rfl⟩, hb⟩
  exact toBytesBE_lt hb

/-- Every byte of an HMAC-SHA256 digest is below 256. -/
theorem hmacSha256_lt {key msg : List Nat} {b : Nat}
    (h : b ∈ hmacSha256 key msg) : b < 256 :=
  sha256_lt h

/-- Encoding then decoding a hex nibble gives it back. -/
theorem hexDigitVal_hexDigitChar : ∀ n < 16, hexDigitVal (hexDigitChar n) = some n := by
  decide

/-- Hex decoding inverts hex encoding on genuine byte lists. -/
theorem hexDecode_hexEncode :
    ∀ bs : List Nat, (∀ b ∈ bs, b < 256) → hexDecode (hexEncode bs) = some bs := by
  intro bs
  induction bs with
  | nil => intro _; rfl
  | cons b rest ih =>
    intro h
    have hb : b < 256 := h b (List.mem_cons_self b rest)
    have hhi : b / 16 < 16 := Nat.div_lt_of_lt_mul (by omega)
    have hlo : b % 16 < 16 := Nat.mod_lt _ (by decide)
    have hrest := ih (fun x hx => h x (List.mem_cons_of_mem b hx))
    simp only [hexEncode, hexDecode, hexDigitVal_hexDigitChar _ hhi,
      hexDigitVal_hexDigitChar _ hlo, hrest]
    have hsplit : 16 * (b / 16) + b % 16 = b := by omega
    rw [hsplit]

/-- The signature GitHub computes for a payload verifies against that same
payload and secret: `verify_hmac_sha256` accepts
`"sha256=" ++ hex (hmac secret payload)`. -/
theorem verify_githubSignature (secret payload : List Nat) :
    verify_hmac_sha256 (githubSignature secret payload) payload secret = Except.ok () := by
  have hdec : hexDecode (hexEncode (hmacSha256 secret payload))
      = some (hmacSha256 secret payload) :=
    hexDecode_hexEncode _ (fun b hb => hmacSha256_lt hb)
  simp [verify_hmac_sha256, githubSignature, dropSha256Tag, hdec]

/-- Claim C3, counterexample: supplying both a key path and a base64 key
is not an error — `GitHubConfig::new` succeeds, reading the path and
ignoring the base64 payload (whose decoder here rejects everything). -/
theorem c3_both_sources_counterexample :
    GitHubConfig.new rfFix bdFix 1 (some "key.pem") (some "QUJD")
      = Except.ok ⟨1, [0]⟩ := rfl

/-- Claim C3, amended: the loader fails exactly when neither key source is
supplied; when a path is supplied it is used and the base64 argument is
ignored entirely; base64 is decoded only when no path is supplied. -/
theorem c3_key_source_rules
    (readFile base64Decode : String → Except String (List Nat)) (app_id : Nat) :
    (GitHubConfig.new readFile base64Decode app_id none none
       = Except.error "Either private_key_path or private_key_base64 must be provided")
    ∧ (∀ path b64, GitHubConfig.new readFile base64Decode app_id (some path) b64
         = GitHubConfig.new readFile base64Decode app_id (some path) none)
    ∧ (∀ path b64, readFile path = Except.ok b64 →
         GitHubConfig.new readFile base64Decode app_id (some path) none
           = Except.ok ⟨app_id, b64⟩)
    ∧ (∀ b64 key, base64Decode b64 = Except.ok key →
         GitHubConfig.new readFile base64Decode app_id none (some b64)
           = Except.ok ⟨app_id, key⟩) := by
  refine ⟨rfl, fun path b64 => rfl, fun path key h => ?_, fun b64 key h => ?_⟩
  · simp [GitHubConfig.new, h]
  · simp [GitHubConfig.new, h]

/-- Witness for C3: the neither-source case of `c3_key_source_rules` and
the success cases, evaluated on the fixture filesystem. -/
theorem c3_key_source_rules_witness :
    GitHubConfig.new rfFix bdFix 5 none none
      = Except.error "Either private_key_path or private_key_base64 must be provided"
    ∧ GitHubConfig.new rfFix bdFix 5 (some "key.pem") none = Except.ok ⟨5, [0]⟩ :=
  ⟨(c3_key_source_rules rfFix bdFix 5).1,
   (c3_key_source_rules rfFix bdFix 5).2.2.1 "key.pem" [0] rfl⟩

/-- Claim C1: a cached entry is usable (`is_expired` answers `false`)
exactly when `now` plus the 5-minute buffer is strictly before the
effective expiry — the parsed `expires_at` when present, else
`created_at` plus one hour; and `installation_client` takes the fresh
token-creation path exactly when the cached entry fails this test,
serving the cached client otherwise. -/
theorem c1_token_expiry
    (chronoParse : String → Option Int) (chronoShow : Int → String)
    (env : RemoteApi) (now eff : Int)
    (cache : Nat → Option CachedInstallationClient) (installation_id : Nat)
    (c : CachedInstallationClient)
    (hc : cache installation_id = some c)
    (heff : match c.token.expires_at with
            | some s => chronoParse s = some eff
            | none => eff = c.created_at + 3600)
    (hrt : chronoParse (chronoShow (c.created_at + 3600))
             = some (c.created_at + 3600)) :
    (is_expired chronoParse chronoShow now c = some false ↔ now + 300 < eff)
    ∧ (is_expired chronoParse chronoShow now c = some true →
        installation_client chronoParse chronoShow env now cache installation_id
          = some (create_installation_client env now cache installation_id))
    ∧ (is_expired chronoParse chronoShow now c = some false →
        installation_client chronoParse chronoShow env now cache installation_id
          = some ⟨Except.ok c.client, 0, cache⟩) := by
  refine ⟨?_, fun h2 => ?_, fun h3 => ?_⟩
  · rcases hea : c.token.expires_at with _ | s
    · rw [hea] at heff
      have heff' : eff = c.created_at + 3600 := heff
      simp only [is_expired, parse_to_utc, hea, Option.getD_none, hrt, Option.map_some',
        Option.some_inj, heff']
      constructor
      · intro hdec
        have := of_decide_eq_false hdec
        omega
      · intro hlt
        exact decide_eq_false (by omega)
    · rw [hea] at heff
      have heff' : chronoParse s = some eff := heff
      simp only [is_expired, parse_to_utc, hea, Option.getD_some, heff', Option.map_some',
        Option.some_inj]
      constructor
      · intro hdec
        have := of_decide_eq_false hdec
        omega
      · intro hlt
        exact decide_eq_false (by omega)
  · simp only [installation_client, hc, h2]
  · simp only [installation_client, hc, h3]

/-- Witness for C1: the expiry rule evaluated on a concrete cached entry
without `expires_at`, created at time 0 and inspected at time 10000. -/
theorem c1_token_expiry_witness :
    (is_expired parse1 show1 10000 entC1 = some false ↔ (10000 : Int) + 300 < 3600)
    ∧ (is_expired parse1 show1 10000 entC1 = some true →
        installation_client parse1 show1 envEmpty 10000 cacheC1 7
          = some (create_installation_client envEmpty 10000 cacheC1 7))
    ∧ (is_expired parse1 show1 10000 entC1 = some false →
        installation_client parse1 show1 envEmpty 10000 cacheC1 7
          = some ⟨Except.ok entC1.client, 0, cacheC1⟩) :=
  c1_token_expiry parse1 show1 envEmpty 10000 3600 cacheC1 7 entC1 rfl
    (by show (3600 : Int) = entC1.created_at + 3600; decide) rfl

/-- Claim C10: when the cached token's `expires_at` string does not parse,
the expiry check inside `installation_client` aborts (the `expect` of
`parse_to_utc`, modelled by `none`) instead of returning an error; and the
check is total whenever the effective expiry string parses. -/
theorem c10_unparseable_expiry
    (chronoParse : String → Option Int) (chronoShow : Int → String)
    (env : RemoteApi) (now : Int)
    (cache : Nat → Option CachedInstallationClient) (installation_id : Nat)
    (c : CachedInstallationClient) (str : String)
    (hc : cache installation_id = some c)
    (hs : c.token.expires_at = some str)
    (hp : chronoParse str = none) :
    installation_client chronoParse chronoShow env now cache installation_id = none
    ∧ ∀ c' : CachedInstallationClient,
        (chronoParse ((c'.token.expires_at).getD
            (chronoShow (c'.created_at + 3600)))).isSome →
        (is_expired chronoParse chronoShow now c').isSome := by
  constructor
  · have hexp : is_expired chronoParse chronoShow now c = none := by
      simp only [is_expired, parse_to_utc, hs, Option.getD_some, hp, Option.map_none']
    simp only [installation_client, hc, hexp]
  · intro c' hps
    rcases hpe : chronoParse ((c'.token.expires_at).getD
        (chronoShow (c'.created_at + 3600))) with _ | e
    · rw [hpe] at hps
      simp at hps
    · simp only [is_expired, parse_to_utc, hpe, Option.map_some', Option.isSome_some]

/-- Witness for C10: a cached entry whose `expires_at` is the unparseable
string `"garbage"` makes the lookup abort. -/
theorem c10_unparseable_expiry_witness :
    installation_client parseC10 show1 envEmpty 0 cacheC10 3 = none
    ∧ ∀ c' : CachedInstallationClient,
        (parseC10 ((c'.token.expires_at).getD (show1 (c'.created_at + 3600)))).isSome →
        (is_expired parseC10 show1 0 c').isSome :=
  c10_unparseable_expiry parseC10 show1 envEmpty 0 cacheC10 3 entC10 "garbage"
    rfl rfl rfl

/-- Claim C8, counterexample: installation 999 is absent from
`list_installations()` (the remote lists no installations at all), yet
`installation_client 999` succeeds — a still-valid cached entry is served
without consulting the installation list. -/
theorem c8_cached_notfound_counterexample :
    envEmpty.installations = Except.ok []
    ∧ installation_client parseC8 show1 envEmpty 0 cacheC8 999
        = some ⟨Except.ok "cachedTok", 0, cacheC8⟩ := by
  constructor <;> rfl

/-- Claim C8, amended: when the installation id is absent from the listed
installations and there is no usable cached entry for it (none, or only an
expired one), `installation_client` fails with the `NotFound` error naming
the id, and no token-creation POST is issued. -/
theorem c8_not_found
    (chronoParse : String → Option Int) (chronoShow : Int → String)
    (env : RemoteApi) (now : Int)
    (cache : Nat → Option CachedInstallationClient) (installation_id : Nat)
    (insts : List Installation)
    (hinsts : env.installations = Except.ok insts)
    (habs : ∀ i ∈ insts, i.id ≠ installation_id)
    (hmiss : ∀ c, cache installation_id = some c →
        is_expired chronoParse chronoShow now c = some true) :
    installation_client chronoParse chronoShow env now cache installation_id
      = some ⟨Except.error (ApiError.notFound installation_id), 0, cache⟩ := by
  have hfind : insts.find? (fun i => i.id == installation_id) = none := by
    rw [List.find?_eq_none]
    intro x hx
    simpa using habs x hx
  have htok : create_installation_token env installation_id
      = ⟨Except.error (ApiError.notFound installation_id), 0⟩ := by
    simp only [create_installation_token, hinsts, hfind]
  have hcreate : create_installation_client env now cache installation_id
      = ⟨Except.error (ApiError.notFound installation_id), 0, cache⟩ := by
    simp only [create_installation_client, htok]
  rcases hcached : cache installation_id with _ | c
  · simp only [installation_client, hcached, hcreate]
  · simp only [installation_client, hcached, hmiss c hcached, hcreate]

/-- Witness for C8: looking up installation 999 against a remote that only
lists installation 1, with an empty cache, yields the `NotFound` error and
no POST. -/
theorem c8_not_found_witness :
    installation_client parse1 show1 envC4 0 (fun _ => none) 999
      = some ⟨Except.error (ApiError.notFound 999), 0, fun _ => none⟩ :=
  c8_not_found parse1 show1 envC4 0 (fun _ => none) 999
    [⟨1, some "https://api.github.com/app/installations/1/access_tokens"⟩] rfl
    (by intro i hi; simp at hi; rw [hi]; decide)
    (by intro c hc; simp at hc)

/-- After a successful `installation_client` call, the resulting cache
holds an entry for the id whose client is the returned one. -/
theorem installation_client_ok_cached
    (chronoParse : String → Option Int) (chronoShow : Int → String)
    (env : RemoteApi) (now : Int)
    (cache : Nat → Option CachedInstallationClient) (installation_id : Nat)
    (r : ClientAttempt) (cl : String)
    (h1 : installation_client chronoParse chronoShow env now cache installation_id
            = some r)
    (h2 : r.result = Except.ok cl) :
    ∃ c', r.newCache installation_id = some c' ∧ c'.client = cl := by
  rcases hcached : cache installation_id with _ | cached
  · simp only [installation_client, hcached] at h1
    rcases htok : (create_installation_token env installation_id).result with e | tok
    · simp only [create_installation_client, htok] at h1
      injection h1 with h1
      subst h1
      simp at h2
    · simp only [create_installation_client, htok] at h1
      injection h1 with h1
      subst h1
      simp only [Except.ok.injEq] at h2
      refine ⟨⟨tok.token, tok, now⟩, ?_, h2⟩
      simp
  · rcases hexp : is_expired chronoParse chronoShow now cached with _ | b
    · simp only [installation_client, hcached, hexp] at h1
      exact Option.noConfusion h1
    · rcases b with _ | _
      · simp only [installation_client, hcached, hexp] at h1
        injection h1 with h1
        subst h1
        simp only [Except.ok.injEq] at h2
        exact ⟨cached, hcached, h2⟩
      · simp only [installation_client, hcached, hexp] at h1
        rcases htok : (create_installation_token env installation_id).result with e | tok
        · simp only [create_installation_client, htok] at h1
          injection h1 with h1
          subst h1
          simp at h2
        · simp only [create_installation_client, htok] at h1
          injection h1 with h1
          subst h1
          simp only [Except.ok.injEq] at h2
          refine ⟨⟨tok.token, tok, now⟩, ?_, h2⟩
          simp

/-- Claim C4: when `installation_client` succeeds and is called again with
no time elapsed while the cached entry it produced is still inside its
expiry window, the second call returns the same client — the one backed by
the cached token — issues no token-creation POST, and leaves the cache
untouched. -/
theorem c4_cache_hit
    (chronoParse : String → Option Int) (chronoShow : Int → String)
    (env : RemoteApi) (now : Int)
    (cache : Nat → Option CachedInstallationClient) (installation_id : Nat)
    (r : ClientAttempt) (cl : String)
    (h1 : installation_client chronoParse chronoShow env now cache installation_id
            = some r)
    (h2 : r.result = Except.ok cl)
    (hfresh : ∀ c', r.newCache installation_id = some c' →
        is_expired chronoParse chronoShow now c' = some false) :
    installation_client chronoParse chronoShow env now r.newCache installation_id
      = some ⟨Except.ok cl, 0, r.newCache⟩ := by
  obtain ⟨c', hc', hcl⟩ :=
    installation_client_ok_cached chronoParse chronoShow env now cache
      installation_id r cl h1 h2
  simp only [installation_client, hc', hfresh c' hc', hcl]

/-- Witness for C4: a first call on an empty cache mints token `tok1` with
one POST; the immediate second call returns the same `tok1`-backed client
with zero POSTs and an unchanged cache. -/
theorem c4_cache_hit_witness :
    installation_client parse1 show1 envC4 0 cacheC4 1
      = some ⟨Except.ok "tok1", 0, cacheC4⟩ :=
  c4_cache_hit parse1 show1 envC4 0 (fun _ => none) 1
    ⟨Except.ok "tok1", 1, cacheC4⟩ "tok1" rfl rfl
    (by
      intro c' hc'
      simp only [cacheC4, if_pos] at hc'
      injection hc' with hc'
      rw [← hc']
      rfl)

/-- If the handler at index `i` fails on the dispatch context, the handler
loop reports failure and never reaches an index beyond `i`. -/
theorem runHandlersFrom_err (ctx : Context) :
    ∀ (hs : List Handler) (st i : Nat) (h : Handler) (e : String),
      hs[i]? = some h → h ctx = Except.error e →
      (runHandlersFrom ctx st hs).2 = false
      ∧ ∀ j ∈ (runHandlersFrom ctx st hs).1, j ≤ st + i := by
  intro hs
  induction hs with
  | nil =>
    intro st i h e hi _
    simp at hi
  | cons h0 rest ih =>
    intro st i h e hi he
    rcases hres : h0 ctx with e0 | u
    · refine ⟨by simp [runHandlersFrom, hres], ?_⟩
      intro j hj
      simp only [runHandlersFrom, hres, List.mem_singleton] at hj
      omega
    · cases i with
      | zero =>
        simp only [List.getElem?_cons_zero, Option.some_inj] at hi
        rw [← hi, hres] at he
        exact Except.noConfusion he
      | succ i' =>
        simp only [List.getElem?_cons_succ] at hi
        obtain ⟨hfalse, hbound⟩ := ih (st + 1) i' h e hi he
        constructor
        · simpa [runHandlersFrom, hres] using hfalse
        · intro j hj
          simp only [runHandlersFrom, hres, List.mem_cons] at hj
          rcases hj with rfl | hj
          · omega
          · have := hbound j hj
            omega

/-- When every handler succeeds on the dispatch context, the loop invokes
all of them in order and reports success. -/
theorem runHandlersFrom_all_ok (ctx : Context) :
    ∀ (hs : List Handler) (st : Nat),
      (∀ h ∈ hs, h ctx = Except.ok ()) →
      runHandlersFrom ctx st hs
        = ((List.range hs.length).map (fun k => st + k), true) := by
  intro hs
  induction hs with
  | nil => intro st _; simp [runHandlersFrom]
  | cons h t ih =>
    intro st hok
    have hh : h ctx = Except.ok () := hok h (List.mem_cons_self h t)
    simp only [runHandlersFrom, hh]
    rw [ih (st + 1) (fun h' hm => hok h' (List.mem_cons_of_mem h hm))]
    simp only [List.length_cons, List.range_succ_eq_map, List.map_cons, List.map_map,
      Prod.mk.injEq, and_true, List.cons.injEq]
    refine ⟨by omega, ?_⟩
    apply List.map_congr_left
    intro k _
    simp only [Function.comp_apply]
    omega

/-- The success flag of the handler loop is the conjunction of the
individual handler outcomes. -/
theorem runHandlersFrom_all_eq (ctx : Context) :
    ∀ (hs : List Handler) (st : Nat),
      (runHandlersFrom ctx st hs).2 = hs.all (fun h => isOkB (h ctx)) := by
  intro hs
  induction hs with
  | nil => intro st; rfl
  | cons h t ih =>
    intro st
    rcases hres : h ctx with e | u
    · simp [runHandlersFrom, hres, isOkB]
    · cases u
      simp [runHandlersFrom, hres, isOkB, ih (st + 1)]

/-- Claim C5: if the handler at position `i` of the registered list fails,
the dispatch outcome is a 500 and no handler at a later position is
invoked for that dispatch. -/
theorem c5_fail_fast (lookup : String → Option (List Handler))
    (g : GitHubEventContext) (hs : List Handler) (i : Nat) (h : Handler)
    (e : String)
    (hl : lookup (mkDispatchContext g).kind = some hs)
    (hi : hs[i]? = some h)
    (he : h (mkDispatchContext g) = Except.error e) :
    (handle_webhook lookup (some g)).1 = 500
    ∧ ∀ j, i < j → j ∉ (handle_webhook lookup (some g)).2 := by
  obtain ⟨hfalse, hbound⟩ :=
    runHandlersFrom_err (mkDispatchContext g) hs 0 i h e hi he
  constructor
  · simp [handle_webhook, hl, hfalse]
  · intro j hij hmem
    simp only [handle_webhook, hl] at hmem
    have := hbound j hmem
    omega

/-- Witness for C5: of three registered `issues` handlers with the second
failing, dispatch answers 500 and invokes no handler past index 1. -/
theorem c5_fail_fast_witness :
    (handle_webhook lookupC5 (some gFix)).1 = 500
    ∧ ∀ j, 1 < j → j ∉ (handle_webhook lookupC5 (some gFix)).2 :=
  c5_fail_fast lookupC5 gFix [hOkF, hErrF, hOkF] 1 hErrF "boom" rfl rfl rfl

/-- `find?` over a mapped list is the mapped `find?` of the composite. -/
theorem find?_map_comp {α β : Type} (f : α → β) (p : β → Bool) (l : List α) :
    (l.map f).find? p = (l.find? (fun a => p (f a))).map f := by
  induction l with
  | nil => rfl
  | cons a l ih =>
    cases hpa : p (f a) with
    | false => simp [List.find?_cons, hpa, ih]
    | true => simp [List.find?_cons, hpa]

/-- `find?` skips a prefix in which nothing matches. -/
theorem find?_append_of_none {α : Type} (p : α → Bool) (l₁ l₂ : List α)
    (h : l₁.find? p = none) : (l₁ ++ l₂).find? p = l₂.find? p := by
  induction l₁ with
  | nil => rfl
  | cons a l ih =>
    rcases hpa : p a with _ | _
    · simp only [List.find?_cons, hpa] at h
      simp only [List.cons_append, List.find?_cons, hpa]
      exact ih h
    · simp only [List.find?_cons, hpa] at h
      exact Option.noConfusion h

/-- Registering a handler appends it to the event's list, starting a fresh
singleton list when the event had no entry. -/
theorem regGet_onRegister_self (reg : Registry) (event : String) (h : Handler) :
    regGet (onRegister reg event h) event
      = some ((regGet reg event).getD [] ++ [h]) := by
  rcases hfind : List.find? (fun p => p.1 == event) reg with _ | p
  · simp only [onRegister, hfind, regGet,
      find?_append_of_none _ _ _ hfind]
    simp [List.find?_cons]
  · simp only [onRegister, hfind, regGet]
    rw [find?_map_comp]
    have heq : (fun q : String × List Handler =>
        (if q.1 == event then (q.1, q.2 ++ [h]) else q).1 == event)
        = (fun q : String × List Handler => q.1 == event) := by
      funext q
      cases hq : (q.1 == event) with
      | false => simp [hq]
      | true => simp [hq]
    rw [heq, hfind]
    have hp := List.find?_some hfind
    have hpe : p.1 = event := by simpa using hp
    simp [hpe]

/-- Registering a handler list extends an existing entry in order. -/
theorem regGet_registerAll_of_some (event : String) :
    ∀ (hs : List Handler) (reg : Registry) (l : List Handler),
      regGet reg event = some l →
      regGet (registerAll reg event hs) event = some (l ++ hs) := by
  intro hs
  induction hs with
  | nil =>
    intro reg l h
    simpa [registerAll] using h
  | cons h t ih =>
    intro reg l hl
    have hstep := regGet_onRegister_self reg event h
    rw [hl] at hstep
    have h2 := ih (onRegister reg event h) (l ++ [h]) (by simpa using hstep)
    simpa [registerAll, List.append_assoc] using h2

/-- Claim C6, counterexample: two handlers are registered in order for
`issues`, the first failing; one dispatch invokes only the first (index 0),
answering 500 — the second registered handler is never invoked, so the
dispatch does not invoke exactly the registered handlers. -/
theorem c6_order_counterexample :
    regGet regC6 "issues" = some [hErrF, hOkF]
    ∧ handle_webhook (regGet regC6) (some gFix) = (500, [0])
    ∧ ¬ (1 ∈ (handle_webhook (regGet regC6) (some gFix)).2) := by
  refine ⟨rfl, rfl, ?_⟩
  intro hmem
  exact absurd (show (1 : Nat) ∈ ([0] : List Nat) from hmem) (by decide)

/-- Claim C6, amended: registering `H1 … Hn` in order for an event type
with no previous entry and dispatching one matching event invokes exactly
those handlers, sequentially in registration order (indices `0 … n-1` in
that order), provided each invoked handler succeeds; dispatch then answers
200. -/
theorem c6_dispatch_order (reg0 : Registry) (event : String)
    (hs : List Handler) (g : GitHubEventContext)
    (hreg : regGet reg0 event = none)
    (hkind : (mkDispatchContext g).kind = event)
    (hok : ∀ h ∈ hs, h (mkDispatchContext g) = Except.ok ()) :
    handle_webhook (regGet (registerAll reg0 event hs)) (some g)
      = (200, List.range hs.length) := by
  cases hs with
  | nil =>
    simp only [handle_webhook, hkind, registerAll, List.foldl_nil, hreg]
    rfl
  | cons h t =>
    have h1 : regGet (onRegister reg0 event h) event = some [h] := by
      have := regGet_onRegister_self reg0 event h
      rwa [hreg] at this
    have h2 : regGet (registerAll reg0 event (h :: t)) event = some (h :: t) := by
      have := regGet_registerAll_of_some event t (onRegister reg0 event h) [h] h1
      simpa [registerAll] using this
    have hrun := runHandlersFrom_all_ok (mkDispatchContext g) (h :: t) 0 hok
    simp only [handle_webhook, hkind, h2, hrun]
    simp

/-- Witness for C6: two succeeding handlers registered for `issues` are
invoked exactly in order `[0, 1]` with a 200 response. -/
theorem c6_dispatch_order_witness :
    handle_webhook (regGet (registerAll [] "issues" [hOkF, hOkF])) (some gFix)
      = (200, List.range 2) :=
  c6_dispatch_order [] "issues" [hOkF, hOkF] gFix rfl rfl
    (by
      intro h hm
      simp only [List.mem_cons, List.mem_singleton, List.not_mem_nil, or_false] at hm
      rcases hm with rfl | rfl <;> rfl)

/-- Claim C7: the `POST /webhook` response status follows the claimed
ladder (`claimedStatus`): 400 when the event-type header is missing or the
body unparseable or the signature header missing, 401 when the signature
fails verification, 500 when an invoked handler errors, and 200 otherwise,
including when no handler is registered for the event. -/
theorem c7_status_codes
    (parseEvent : String → List Nat → Option WebhookEventModel)
    (cfg : HmacConfig) (handlers : String → Option (List Handler))
    (req : Request) :
    (webhook_route parseEvent cfg handlers req).1
      = claimedStatus parseEvent cfg handlers req := by
  cases hE : req.eventHeader with
  | none => simp [webhook_route, claimedStatus, github_event_middleware, hE]
  | some eventType =>
    cases hP : parseEvent eventType req.body with
    | none => simp [webhook_route, claimedStatus, github_event_middleware, hE, hP]
    | some ev =>
      cases hS : req.sigHeader with
      | none =>
        simp [webhook_route, claimedStatus, github_event_middleware,
          verify_hmac_middleware, restore_request_body, hE, hP, hS]
      | some signature =>
        cases hV : verify_hmac_sha256 signature req.body cfg.secret with
        | error e =>
          simp [webhook_route, claimedStatus, github_event_middleware,
            verify_hmac_middleware, restore_request_body, hE, hP, hS, hV]
        | ok u =>
          cases u
          cases hL : handlers (mkDispatchContext
              ⟨ev, ev.installation.map (fun n => i64cast n)⟩).kind with
          | none =>
            simp [webhook_route, claimedStatus, github_event_middleware,
              verify_hmac_middleware, restore_request_body, handle_webhook,
              hE, hP, hS, hV, hL]
          | some hs =>
            simp [webhook_route, claimedStatus, github_event_middleware,
              verify_hmac_middleware, restore_request_body, handle_webhook,
              hE, hP, hS, hV, hL,
              runHandlersFrom_all_eq (mkDispatchContext
                ⟨ev, ev.installation.map (fun n => i64cast n)⟩) hs 0]

/-- Claim C9: for a request whose signature verifies, the classifier
restores the exact bytes it parsed and the verifier reconstructs the
request with the exact bytes the HMAC was computed over, so the byte
sequence flowing through the pipeline is unchanged and the accepted
signature verifies against precisely the bytes handed to dispatch. -/
theorem c9_verified_bytes_unchanged
    (parseEvent : String → List Nat → Option WebhookEventModel)
    (cfg : HmacConfig) (req req1 req2 : Request) (g : GitHubEventContext)
    (hclass : github_event_middleware parseEvent req = Except.ok (req1, g))
    (hver : verify_hmac_middleware cfg req1 = Except.ok req2) :
    req1.body = req.body ∧ req2.body = req1.body
    ∧ ∀ signature, req1.sigHeader = some signature →
        verify_hmac_sha256 signature req2.body cfg.secret = Except.ok () := by
  have hbody1 : req1.body = req.body := by
    rcases hE : req.eventHeader with _ | eventType
    · simp only [github_event_middleware, hE] at hclass
      exact Except.noConfusion hclass
    · simp only [github_event_middleware, hE] at hclass
      rcases hP : parseEvent eventType req.body with _ | ev
      · rw [hP] at hclass
        exact Except.noConfusion hclass
      · rw [hP] at hclass
        injection hclass with hpair
        have h1 : restore_request_body req req.body = req1 :=
          congrArg Prod.fst hpair
        rw [← h1]
        rfl
  rcases hS : req1.sigHeader with _ | signature
  · simp only [verify_hmac_middleware, hS] at hver
    exact Except.noConfusion hver
  · simp only [verify_hmac_middleware, hS] at hver
    rcases hV : verify_hmac_sha256 signature req1.body cfg.secret with e | u
    · rw [hV] at hver
      exact Except.noConfusion hver
    · cases u
      rw [hV] at hver
      injection hver with hreq2
      have hbody2 : req2.body = req1.body := by
        rw [← hreq2]
        rfl
      refine ⟨hbody1, hbody2, ?_⟩
      intro sig' hsig'
      have h4 := Option.some.inj hsig'
      rw [← h4, hbody2]
      exact hV

/-- Witness for C9: a correctly signed fixture request passes both
middlewares with its two-byte body intact, and the signature verifies
against exactly those bytes. -/
theorem c9_verified_bytes_unchanged_witness :
    reqC9.body = reqC9.body ∧ reqC9.body = reqC9.body
    ∧ ∀ signature, reqC9.sigHeader = some signature →
        verify_hmac_sha256 signature reqC9.body cfgFix.secret = Except.ok () :=
  c9_verified_bytes_unchanged parseEvFix cfgFix reqC9 reqC9 reqC9 gC9 rfl
    (by
      have hv := verify_githubSignature secretFix bodyFix
      simp only [verify_hmac_middleware, reqC9, cfgFix, hv, restore_request_body])

set_option maxRecDepth 100000 in
/-- At the fixture input, verifying the signature of body `[97, 98]`
against the body `[97, 99]` — the original with its second byte mutated —
fails with a digest mismatch.  One concrete instance of the
mutation-rejection property; the universal form is HMAC-SHA256
second-preimage resistance and is not derivable by computation. -/
theorem verify_rejects_mutated_fixture :
    verify_hmac_sha256 (githubSignature secretFix bodyFix) [97, 99] secretFix
      = Except.error VerifyError.mismatch := rfl

end Octofer
